import Mathlib

/-!
Verification of the WiFi client report generator (`App/report_generator.py`).

The development shallowly embeds the two components of the tool:

* ingestion (`ingest_files`, `csv_import`, `normalize_datetime`), and
* the report builder (`generate_excel_report`, `generate_site_report`),

as executable Lean functions over explicit data, and proves the frozen
claims about them.  Python exceptions are modelled with `Except String`;
the workbook output is modelled as the list of sheets written to it, each
sheet recording the values the source writes into its cells.
-/

namespace XIQReport

/-- A parsed timestamp, as produced by `datetime.datetime.strptime` for the
two accepted formats.  The fields are the `datetime` components the program
uses (year, month, day, hour, minute, second). -/
structure DateTime where
  year : Nat
  month : Nat
  day : Nat
  hour : Nat
  minute : Nat
  second : Nat
deriving DecidableEq, Repr, Inhabited

/-- Lexicographic less-or-equal on lists of naturals; the comparison scheme
underlying chronological order on `DateTime` components. -/
def lexLe : List Nat → List Nat → Bool
  | [], _ => true
  | _ :: _, [] => false
  | x :: xs, y :: ys =>
    if x < y then true
    else if y < x then false
    else lexLe xs ys

/-- The component list of a timestamp, most significant first. -/
def dtList (t : DateTime) : List Nat :=
  [t.year, t.month, t.day, t.hour, t.minute, t.second]

/-- Chronological comparison of timestamps: the order used by the pandas
date-range comparisons (`>=`, `<=`) and by `sorted`. -/
def dtLe (a b : DateTime) : Bool :=
  lexLe (dtList a) (dtList b)

/-- Model of `Series.dt.normalize()`: truncate a timestamp to its calendar day. -/
def truncDay (t : DateTime) : DateTime :=
  { year := t.year, month := t.month, day := t.day, hour := 0, minute := 0, second := 0 }

/-- Number of days in a month, as enforced by the Python `datetime`
constructor (an out-of-range day makes `strptime` raise `ValueError`). -/
def daysInMonth (y m : Nat) : Nat :=
  if m = 2 then
    if y % 4 = 0 ∧ (y % 100 ≠ 0 ∨ y % 400 = 0) then 29 else 28
  else if m = 4 ∨ m = 6 ∨ m = 9 ∨ m = 11 then 30
  else 31

/-- Split a character list at its maximal leading digit run. -/
def spanDigits : List Char → List Char × List Char
  | [] => ([], [])
  | c :: cs =>
    if c.isDigit then
      let p := spanDigits cs
      (c :: p.1, p.2)
    else ([], c :: cs)

/-- Numeric value of a digit run. -/
def digitsToNat (ds : List Char) : Nat :=
  ds.foldl (fun a c => a * 10 + (c.toNat - 48)) 0

/-- Consume one literal (non-whitespace) character of a `strptime` format. -/
def expectChar (c : Char) : List Char → Option (List Char)
  | [] => none
  | x :: xs => if x = c then some xs else none

/-- Whitespace in a `strptime` format matches one or more whitespace
characters of the input. -/
def expectWs : List Char → Option (List Char)
  | [] => none
  | x :: xs => if x.isWhitespace then some (xs.dropWhile Char.isWhitespace) else none

/-- A numeric `strptime` field of one or two digits (`%m`, `%d`, `%H`, `%M`,
`%S`): the maximal digit run is consumed; it must be one or two digits long
and its value must lie in the directive's range.  Because every field is
followed by a non-digit (a separator or the end of the input), this munching
is equivalent to the backtracking regexes `_strptime` compiles. -/
def field2 (lo hi : Nat) (cs : List Char) : Option (Nat × List Char) :=
  let p := spanDigits cs
  if 1 ≤ p.1.length ∧ p.1.length ≤ 2 then
    let v := digitsToNat p.1
    if lo ≤ v ∧ v ≤ hi then some (v, p.2) else none
  else none

/-- The `%Y` field: exactly four digits. -/
def fieldY4 (cs : List Char) : Option (Nat × List Char) :=
  let p := spanDigits cs
  if p.1.length = 4 then some (digitsToNat p.1, p.2) else none

/-- The `%y` field: exactly two digits; `00`–`68` mean 2000–2068 and
`69`–`99` mean 1969–1999. -/
def fieldY2 (cs : List Char) : Option (Nat × List Char) :=
  let p := spanDigits cs
  if p.1.length = 2 then some (digitsToNat p.1, p.2) else none

/-- Model of `datetime.strptime(value, "%Y-%m-%d %H:%M:%S")`, including the calendar
validity checks the `datetime` constructor performs (year at least 1, day
within the month); any violation is a `ValueError`, i.e. `none`. -/
def pYmdHms (cs : List Char) : Option DateTime := do
  let (y, cs) ← fieldY4 cs
  let cs ← expectChar '-' cs
  let (mo, cs) ← field2 1 12 cs
  let cs ← expectChar '-' cs
  let (d, cs) ← field2 1 31 cs
  let cs ← expectWs cs
  let (h, cs) ← field2 0 23 cs
  let cs ← expectChar ':' cs
  let (mi, cs) ← field2 0 59 cs
  let cs ← expectChar ':' cs
  let (s, cs) ← field2 0 59 cs
  if cs = [] ∧ 1 ≤ y ∧ d ≤ daysInMonth y mo then
    some { year := y, month := mo, day := d, hour := h, minute := mi, second := s }
  else none

/-- Model of `datetime.strptime(value, "%m/%d/%y %H:%M")`; unspecified seconds
default to 0. -/
def pMdyHm (cs : List Char) : Option DateTime := do
  let (mo, cs) ← field2 1 12 cs
  let cs ← expectChar '/' cs
  let (d, cs) ← field2 1 31 cs
  let cs ← expectChar '/' cs
  let (y2, cs) ← fieldY2 cs
  let cs ← expectWs cs
  let (h, cs) ← field2 0 23 cs
  let cs ← expectChar ':' cs
  let (mi, cs) ← field2 0 59 cs
  let y := if y2 ≤ 68 then 2000 + y2 else 1900 + y2
  if cs = [] ∧ d ≤ daysInMonth y mo then
    some { year := y, month := mo, day := d, hour := h, minute := mi, second := 0 }
  else none

/-- Model of `str.strip()`: remove leading and trailing whitespace. -/
def pyStrip (s : String) : String :=
  String.mk (((s.toList.dropWhile Char.isWhitespace).reverse.dropWhile
    Char.isWhitespace).reverse)

/-- Python slicing `s[:n]`. -/
def strTake (s : String) (n : Nat) : String :=
  String.mk (s.toList.take n)

/-- Model of `str.lower()` (ASCII case folding, which covers file extensions). -/
def strToLower (s : String) : String :=
  String.mk (s.toList.map Char.toLower)

/-- Model of `str.endswith(suffix)`. -/
def strEndsWith (s suffix : String) : Bool :=
  List.isPrefixOf suffix.toList.reverse s.toList.reverse

/-- Model of `normalize_datetime` (report_generator.py lines 31-37): try the format
`%Y-%m-%d %H:%M:%S`, then `%m/%d/%y %H:%M`; return the first successful
parse, or raise `ValueError(f"Invalid date format: {value}")`. -/
def normalize_datetime (value : String) : Except String DateTime :=
  match pYmdHms value.toList with
  | some t => Except.ok t
  | none =>
    match pMdyHm value.toList with
    | some t => Except.ok t
    | none => Except.error ("Invalid date format: " ++ value)

/-! ### Ingestion (`csv_import`, `ingest_files`) -/

/-- The twelve expected header names (report_generator.py lines 40-44). -/
def expected_headers : List String :=
  ["location", "sublocation", "associate_vlan", "device_mac", "client_mac",
   "start_time", "end_time", "client_ip", "client_host_name", "client_os_name",
   "bssid", "ssid"]

/-- The header-scanning loop (lines 47-50): return the first row containing
all of the first four expected header names, together with the remaining
rows of the file (the `csv.reader` is left positioned after the header). -/
def findHeader : List (List String) → Option (List String × List (List String))
  | [] => none
  | row :: rest =>
    if (expected_headers.take 4).all (fun h => row.contains h) then some (row, rest)
    else findHeader rest

/-- The `header_map` dict of line 51: name-to-index mapping for the expected headers
present in the header row, in `expected_headers` (dict-insertion) order;
`List.indexOf` is Python's `list.index`, the first matching position. -/
def headerMap (headers : List String) : List (String × Nat) :=
  expected_headers.filterMap (fun k =>
    if headers.contains k then some (k, headers.indexOf k) else none)

/-- One ingested record: the mapping of header name to trimmed cell value
built on line 56.  Keys follow `headerMap` order. -/
abbrev RecordMap : Type := List (String × String)

/-- The data-row loop (lines 53-57): a row shorter than the header map is
skipped; otherwise each mapped header is looked up at its index (a mapped
index beyond the row's length is an `IndexError`, hence `Except.error`). -/
def parseRows (hm : List (String × Nat)) : List (List String) → Except String (List RecordMap)
  | [] => Except.ok []
  | row :: rest =>
    if row.length < hm.length then parseRows hm rest
    else if hm.all (fun ki => ki.2 < row.length) then
      match parseRows hm rest with
      | Except.error e => Except.error e
      | Except.ok es =>
          Except.ok ((hm.map (fun ki => (ki.1, pyStrip (row.getD ki.2 "")))) :: es)
    else Except.error "IndexError: list index out of range"

/-- Model of `csv_import` (lines 39-58) on the rows of one CSV file.  When no row of
the file contains the four trigger headers, the scanning loop falls through
without ever assigning `headers`, and line 51 then raises
`UnboundLocalError`; that crash is the `Except.error` branch here. -/
def csv_import (rows : List (List String)) : Except String (List RecordMap) :=
  match findHeader rows with
  | none => Except.error "UnboundLocalError: local variable referenced before assignment"
  | some (headers, rest) => parseRows (headerMap headers) rest

/-- The content of one input file: either a CSV (its parsed rows) or a ZIP
archive (named entries, each with its rows).  The model identifies a file
with its well-formed content; byte-level corruption is outside the model. -/
inductive FileContent where
  | csvFile (rows : List (List String))
  | zipFile (entries : List (String × List (List String)))
deriving DecidableEq

/-- The test `path.lower().endswith(".csv")`. -/
def csvExt (name : String) : Bool := strEndsWith (strToLower name) ".csv"

/-- The test `path.lower().endswith(".zip")`. -/
def zipExt (name : String) : Bool := strEndsWith (strToLower name) ".zip"

/-- The inner loop of the ZIP branch (lines 24-27): each entry whose name
ends in `.csv` is extracted and parsed; other entries are ignored. -/
def importZipEntries : List (String × List (List String)) → Except String (List RecordMap)
  | [] => Except.ok []
  | (n, rows) :: rest =>
    if csvExt n then
      match csv_import rows with
      | Except.error e => Except.error e
      | Except.ok rs =>
        match importZipEntries rest with
        | Except.error e => Except.error e
        | Except.ok more => Except.ok (rs ++ more)
    else importZipEntries rest

/-- Model of `ingest_files` (lines 10-29): dispatch each input on its (lowercased)
extension; `.csv` files and `.csv` entries of `.zip` archives are parsed and
their records concatenated; any other input is ignored.  A file whose
content does not match its extension is unreadable (`Except.error`). -/
def ingest_files : List (String × FileContent) → Except String (List RecordMap)
  | [] => Except.ok []
  | (name, content) :: rest =>
    if csvExt name then
      match content with
      | FileContent.csvFile rows =>
        match csv_import rows with
        | Except.error e => Except.error e
        | Except.ok rs =>
          match ingest_files rest with
          | Except.error e => Except.error e
          | Except.ok more => Except.ok (rs ++ more)
      | FileContent.zipFile _ => Except.error "Error: unreadable csv file"
    else if zipExt name then
      match content with
      | FileContent.zipFile entries =>
        match importZipEntries entries with
        | Except.error e => Except.error e
        | Except.ok rs =>
          match ingest_files rest with
          | Except.error e => Except.error e
          | Except.ok more => Except.ok (rs ++ more)
      | FileContent.csvFile _ => Except.error "zipfile.BadZipFile"
    else ingest_files rest

/-! ### Report builder (`generate_excel_report`, `generate_site_report`)

The builder receives records whose fields are the DataFrame columns the
source reads: `location`, `sublocation`, `client_mac`, `ssid`, `start_time`,
`end_time`.  `pd.DataFrame(data)` is the identity on such uniform records.
-/

/-- An input record as handed to `generate_excel_report` (timestamps still
textual). -/
structure RawRec where
  location : String
  sublocation : String
  client_mac : String
  ssid : String
  start_time : String
  end_time : String
deriving DecidableEq, Repr

/-- A record after the derivation pass of lines 63-70: parsed timestamps
plus the derived `session_date` and `building` columns.  `session_date` is
assigned from the (already normalized) `end_time` column as-is (line 66);
`connected_time` (line 65) is also derived there but is never read by any
later line, so it is not modelled. -/
structure Rec where
  location : String
  sublocation : String
  client_mac : String
  ssid : String
  start_time : DateTime
  end_time : DateTime
  session_date : DateTime
  building : String
deriving DecidableEq, Repr

/-- The part of a character list before the first occurrence of `c`
(`str.split(c, 1)[0]`). -/
def splitFirstAt (c : Char) : List Char → List Char
  | [] => []
  | x :: xs => if x = c then [] else x :: splitFirstAt c xs

/-- Line 70: `building` is the part of `sublocation` before the first `|`
(the whole string when there is none), stripped of surrounding whitespace.
(`astype(str)` is the identity on string columns.) -/
def buildingOf (s : String) : String :=
  pyStrip (String.mk (splitFirstAt '|' s.toList))

/-- Apply a fallible function to every element in order, stopping at the
first failure — the semantics of `Series.apply` with a raising function,
and of the sequential loops of the source. -/
def mapME {α β : Type} (f : α → Except String β) : List α → Except String (List β)
  | [] => Except.ok []
  | x :: xs =>
    match f x with
    | Except.error e => Except.error e
    | Except.ok y =>
      match mapME f xs with
      | Except.error e => Except.error e
      | Except.ok ys => Except.ok (y :: ys)

/-- Assemble the derived records from the raw records and their two parsed
timestamp columns (lines 63-70): `session_date := end_time` untruncated,
`building := buildingOf sublocation`. -/
def mkRecs : List RawRec → List DateTime → List DateTime → List Rec
  | r :: rs, st :: sts, en :: ens =>
    { location := r.location, sublocation := r.sublocation,
      client_mac := r.client_mac, ssid := r.ssid,
      start_time := st, end_time := en,
      session_date := en, building := buildingOf r.sublocation }
      :: mkRecs rs sts ens
  | _, _, _ => []

/-- Lines 62-70: normalize the whole `start_time` column, then the whole
`end_time` column (each a `Series.apply` of `normalize_datetime`, so the
first unparseable value in a column aborts everything), then derive the
computed columns. -/
def normalizeAll (data : List RawRec) : Except String (List Rec) :=
  match mapME (fun r => normalize_datetime r.start_time) data with
  | Except.error e => Except.error e
  | Except.ok starts =>
    match mapME (fun r => normalize_datetime r.end_time) data with
    | Except.error e => Except.error e
    | Except.ok ends => Except.ok (mkRecs data starts ends)

/-- Lines 72-75: the date-range filter.  Each supplied bound keeps the rows
whose (full-timestamp) `session_date` is on its closed side; an absent
bound filters nothing. -/
def filterByDates (recs : List Rec) (date_from date_to : Option DateTime) : List Rec :=
  let r1 := match date_from with
    | some d => recs.filter (fun r => dtLe d r.session_date)
    | none => recs
  match date_to with
  | some d => r1.filter (fun r => dtLe r.session_date d)
  | none => r1

/-- Worker for `uniqueFirst`: keep each value not yet seen. -/
def uniqueFirstAux {α : Type} [DecidableEq α] : List α → List α → List α
  | _, [] => []
  | seen, x :: xs =>
    if x ∈ seen then uniqueFirstAux seen xs
    else x :: uniqueFirstAux (x :: seen) xs

/-- Model of `Series.unique()`: the distinct values in order of first appearance. -/
def uniqueFirst {α : Type} [DecidableEq α] (l : List α) : List α :=
  uniqueFirstAux [] l

/-- Chronological order as a relation, for `List.insertionSort`. -/
def dtLeProp : DateTime → DateTime → Prop := fun a b => dtLe a b = true

instance : DecidableRel dtLeProp := fun a b =>
  inferInstanceAs (Decidable (dtLe a b = true))

/-- Python string order (code-point lexicographic), for `sorted` over
building names. -/
def strLeProp : String → String → Prop := fun a b => a ≤ b

instance : DecidableRel strLeProp := fun a b =>
  inferInstanceAs (Decidable (a ≤ b))

/-- Model of `sorted` over building names. -/
def strSort (l : List String) : List String := List.insertionSort strLeProp l

/-- Line 78: `date_cols = sorted(df['session_date'].dt.normalize().unique())`
over the filtered record set — the day columns shared by every sheet. -/
def dateColsOf (recs : List Rec) : List DateTime :=
  List.insertionSort dtLeProp (uniqueFirst (recs.map (fun r => truncDay r.session_date)))

/-- One "Sessions"/"Users" cell pair of a day column. -/
structure DayCell where
  sessions : Nat
  users : Nat
deriving DecidableEq, Repr

/-- One rendered SSID or building/sublocation row: its label, total cells,
and per-day cells. -/
structure GroupRow where
  label : String
  sessions : Nat
  users : Nat
  dayCells : List DayCell
deriving DecidableEq, Repr

/-- One rendered location block: the location summary row and its SSID and
building/sublocation sub-rows. -/
structure LocBlock where
  location : String
  sessions : Nat
  users : Nat
  dayCells : List DayCell
  ssidRows : List GroupRow
  subRows : List GroupRow
deriving DecidableEq, Repr

/-- The values `generate_site_report` writes into one worksheet: the sheet
name (truncated to 31 characters by `add_worksheet`), the summary block
(C6/D6), the day columns with the whole-sheet day cells (row 8), the
time-stamp box, and the data rows. -/
structure Sheet where
  name : String
  totalSessions : Nat
  totalUsers : Nat
  dayCols : List DateTime
  dayCells : List DayCell
  timeStart : DateTime
  timeEnd : DateTime
  locations : List LocBlock
deriving DecidableEq, Repr

/-- Model of `Series.nunique()` on a string column: the number of distinct values. -/
def nunique (vals : List String) : Nat := vals.dedup.length

/-- The count `df['client_mac'].nunique()`. -/
def usersOf (df : List Rec) : Nat := nunique (df.map (fun r => r.client_mac))

/-- The per-day cell pairs for a subset: for each day column `d`, the rows
of the subset whose normalized `session_date` equals `d` give the sessions
count and the distinct-`client_mac` count (lines 260-266 and analogues). -/
def mkDayCells (df : List Rec) (cols : List DateTime) : List DayCell :=
  cols.map (fun d =>
    let day_df := df.filter (fun r => truncDay r.session_date = d)
    { sessions := day_df.length, users := usersOf day_df })

/-- Line 319: group sub-rows by `building` when aggregating floors, else by
raw `sublocation`.  (`dropna` is the identity: both columns are strings.) -/
def groupKey (aggregate_floors : Bool) (r : Rec) : String :=
  if aggregate_floors then r.building else r.sublocation

/-- One SSID or building/sublocation row (lines 300-316 / 321-337). -/
def mkGroupRow (df : List Rec) (label : String) (cols : List DateTime) : GroupRow :=
  { label := label, sessions := df.length, users := usersOf df,
    dayCells := mkDayCells df cols }

/-- One location block (lines 281-337): the location summary row and one
row per distinct SSID and per distinct grouping value, iterated in
first-appearance (`unique()`) order. -/
def mkLocBlock (df : List Rec) (location : String) (cols : List DateTime)
    (aggregate_floors : Bool) : LocBlock :=
  let loc_df := df.filter (fun r => r.location = location)
  { location := location,
    sessions := loc_df.length,
    users := usersOf loc_df,
    dayCells := mkDayCells loc_df cols,
    ssidRows := (uniqueFirst (loc_df.map (fun r => r.ssid))).map
      (fun s => mkGroupRow (loc_df.filter (fun r => r.ssid = s)) s cols),
    subRows := (uniqueFirst (loc_df.map (groupKey aggregate_floors))).map
      (fun n => mkGroupRow (loc_df.filter (fun r => groupKey aggregate_floors r = n)) n cols) }

/-- The cell values a successful run of `generate_site_report` writes for a
nonempty subset.  `timeset` (line 270) is the sorted list of `end_time`
values; the box shows its first and last element. -/
def mkSheet (df : List Rec) (sheet_name : String) (cols : List DateTime)
    (aggregate_floors : Bool) : Sheet :=
  let timeset := List.insertionSort dtLeProp (df.map (fun r => r.end_time))
  { name := strTake sheet_name 31,
    totalSessions := df.length,
    totalUsers := usersOf df,
    dayCols := cols,
    dayCells := mkDayCells df cols,
    timeStart := timeset.headD default,
    timeEnd := timeset.getLastD default,
    locations := (uniqueFirst (df.map (fun r => r.location))).map
      (fun loc => mkLocBlock df loc cols aggregate_floors) }

/-- Model of `generate_site_report` (lines 129-342).  On an empty subset the title
computation `df['start_time'].dt.strftime('%B').mode()[0]` (line 229, whose
result `month` is never used afterwards) and `timeset[0]` (line 274) raise
an indexing error, so rendering fails; otherwise the sheet's cells are
exactly `mkSheet`. -/
def generate_site_report (df : List Rec) (sheet_name : String)
    (cols : List DateTime) (aggregate_floors : Bool) : Except String Sheet :=
  if df.isEmpty then Except.error "IndexError: empty subset"
  else Except.ok (mkSheet df sheet_name cols aggregate_floors)

/-- Sequencing of fallible steps (exception propagation): the failure of a
step aborts everything after it. -/
def exBind {α β : Type} (x : Except String α) (f : α → Except String β) :
    Except String β :=
  match x with
  | Except.error e => Except.error e
  | Except.ok a => f a

theorem exBind_ok {α β : Type} (a : α) (f : α → Except String β) :
    exBind (Except.ok a) f = f a := rfl

theorem exBind_error {α β : Type} (e : String) (f : α → Except String β) :
    exBind (Except.error e) f = Except.error e := rfl

/-- Steps 5-7 of the build (lines 83-127), on the already-filtered record
set: the combined "Report" sheet when more than one site is selected, one
sheet per selected site with a nonempty subset, and — when both
`aggregate_floors` and `tab_per_building` are set — one sheet per distinct
`building` value of the selected sites' records, in sorted order, named
`"Bldg - "` plus the building name truncated to 31 characters. -/
def buildSheets (df : List Rec) (selected_sites : List String)
    (aggregate_floors tab_per_building : Bool) : Except String (List Sheet) :=
  let date_cols := dateColsOf df
  let aggRes : Except String (List Sheet) :=
    if 1 < selected_sites.length then
      exBind (generate_site_report (df.filter (fun r => selected_sites.contains r.location))
        "Report" date_cols aggregate_floors) (fun s => Except.ok [s])
    else Except.ok []
  exBind aggRes (fun aggSheets =>
  exBind (mapME
      (fun site => generate_site_report (df.filter (fun r => r.location = site))
        site date_cols aggregate_floors)
      (selected_sites.filter
        (fun site => !(List.isEmpty (df.filter (fun r => r.location = site))))))
    (fun siteSheets =>
      if aggregate_floors && tab_per_building then
        let building_df := df.filter (fun r => selected_sites.contains r.location)
        exBind (mapME
            (fun b => generate_site_report (building_df.filter (fun r => r.building = b))
              (strTake ("Bldg - " ++ b) 31) date_cols true)
            ((strSort (uniqueFirst (building_df.map (fun r => r.building)))).filter
              (fun b => !(List.isEmpty (building_df.filter (fun r => r.building = b))))))
          (fun bldgSheets => Except.ok (aggSheets ++ siteSheets ++ bldgSheets))
      else Except.ok (aggSheets ++ siteSheets)))

/-- Model of `generate_excel_report` (lines 60-127), rendered as the list of sheets
written to the workbook at `output_path`.  The timestamp-normalization pass
(lines 62-70) runs before the `xlsxwriter.Workbook` object is created on
line 80, so a normalization failure aborts the run with no workbook. -/
def generate_excel_report (data : List RawRec) (selected_sites : List String)
    (date_from date_to : Option DateTime) (aggregate_floors tab_per_building : Bool) :
    Except String (List Sheet) :=
  match normalizeAll data with
  | Except.error e => Except.error e
  | Except.ok recs =>
    buildSheets (filterByDates recs date_from date_to) selected_sites
      aggregate_floors tab_per_building

/-! ### Basic lemmas about the embedding -/

theorem lexLe_refl : ∀ xs : List Nat, lexLe xs xs = true
  | [] => rfl
  | x :: xs => by
    simp only [lexLe, Nat.lt_irrefl, if_false]
    exact lexLe_refl xs

theorem lexLe_total : ∀ xs ys : List Nat, lexLe xs ys = true ∨ lexLe ys xs = true
  | [], _ => Or.inl rfl
  | _ :: _, [] => Or.inr rfl
  | x :: xs, y :: ys => by
    simp only [lexLe]
    rcases Nat.lt_trichotomy x y with h | h | h
    · left; simp [h]
    · subst h
      simp only [Nat.lt_irrefl, if_false]
      exact lexLe_total xs ys
    · right; simp [h]

theorem lexLe_trans : ∀ xs ys zs : List Nat,
    lexLe xs ys = true → lexLe ys zs = true → lexLe xs zs = true
  | [], _, _ => fun _ _ => rfl
  | _ :: _, [], _ => fun h _ => by simp [lexLe] at h
  | _ :: _, _ :: _, [] => fun _ h => by simp [lexLe] at h
  | x :: xs, y :: ys, z :: zs => by
    simp only [lexLe]
    intro h1 h2
    rcases Nat.lt_trichotomy x y with hxy | hxy | hxy
    · rcases Nat.lt_trichotomy y z with hyz | hyz | hyz
      · simp [Nat.lt_trans hxy hyz]
      · subst hyz; simp [hxy]
      · rw [if_neg (Nat.lt_asymm hyz), if_pos hyz] at h2; exact absurd h2 (by simp)
    · subst hxy
      rcases Nat.lt_trichotomy x z with hyz | hyz | hyz
      · simp [hyz]
      · subst hyz
        simp only [Nat.lt_irrefl, if_false] at h1 h2 ⊢
        exact lexLe_trans xs ys zs h1 h2
      · rw [if_neg (Nat.lt_asymm hyz), if_pos hyz] at h2; exact absurd h2 (by simp)
    · rw [if_neg (Nat.lt_asymm hxy), if_pos hxy] at h1; exact absurd h1 (by simp)

theorem dtLe_refl (a : DateTime) : dtLe a a = true := lexLe_refl _

instance : IsTotal DateTime dtLeProp :=
  ⟨fun a b => lexLe_total (dtList a) (dtList b)⟩

instance : IsTrans DateTime dtLeProp :=
  ⟨fun a b c => lexLe_trans (dtList a) (dtList b) (dtList c)⟩

instance : IsTotal String strLeProp := ⟨fun a b => le_total a b⟩

instance : IsTrans String strLeProp := ⟨fun _ _ _ => le_trans⟩

theorem mem_uniqueFirstAux {α : Type} [DecidableEq α] (a : α) :
    ∀ (l seen : List α), a ∈ uniqueFirstAux seen l ↔ a ∈ l ∧ a ∉ seen := by
  intro l
  induction l with
  | nil => intro seen; simp [uniqueFirstAux]
  | cons x xs ih =>
    intro seen
    by_cases hx : x ∈ seen
    · rw [uniqueFirstAux, if_pos hx, ih seen]
      constructor
      · rintro ⟨h1, h2⟩
        exact ⟨List.mem_cons_of_mem x h1, h2⟩
      · rintro ⟨h1, h2⟩
        rcases List.mem_cons.mp h1 with h1 | h1
        · exact absurd (h1 ▸ hx) h2
        · exact ⟨h1, h2⟩
    · rw [uniqueFirstAux, if_neg hx]
      by_cases hax : a = x
      · subst hax
        simp [hx]
      · simp only [List.mem_cons, hax, false_or]
        rw [ih (x :: seen)]
        simp [hax]

theorem mem_uniqueFirst {α : Type} [DecidableEq α] (l : List α) (a : α) :
    a ∈ uniqueFirst l ↔ a ∈ l := by
  unfold uniqueFirst
  rw [mem_uniqueFirstAux]
  simp

theorem nodup_uniqueFirstAux {α : Type} [DecidableEq α] :
    ∀ (l seen : List α), (uniqueFirstAux seen l).Nodup := by
  intro l
  induction l with
  | nil => intro seen; simp [uniqueFirstAux]
  | cons x xs ih =>
    intro seen
    by_cases hx : x ∈ seen
    · rw [uniqueFirstAux, if_pos hx]
      exact ih seen
    · rw [uniqueFirstAux, if_neg hx]
      refine List.Nodup.cons ?_ (ih (x :: seen))
      intro hmem
      exact ((mem_uniqueFirstAux x xs (x :: seen)).mp hmem).2 (List.mem_cons_self x seen)

theorem nodup_uniqueFirst {α : Type} [DecidableEq α] (l : List α) :
    (uniqueFirst l).Nodup :=
  nodup_uniqueFirstAux l []

theorem uniqueFirst_eq_nil {α : Type} [DecidableEq α] {l : List α}
    (h : uniqueFirst l = []) : l = [] := by
  cases l with
  | nil => rfl
  | cons x xs => simp [uniqueFirst, uniqueFirstAux] at h

theorem mapME_ok_mem {α β : Type} {f : α → Except String β} :
    ∀ {xs : List α} {ys : List β}, mapME f xs = Except.ok ys →
      ∀ y ∈ ys, ∃ x ∈ xs, f x = Except.ok y := by
  intro xs
  induction xs with
  | nil =>
    intro ys h y hy
    simp only [mapME] at h
    cases h
    simp at hy
  | cons x xs ih =>
    intro ys h y hy
    simp only [mapME] at h
    cases hfx : f x with
    | error e => rw [hfx] at h; cases h
    | ok b =>
      rw [hfx] at h
      cases hrest : mapME f xs with
      | error e => rw [hrest] at h; cases h
      | ok bs =>
        rw [hrest] at h
        cases h
        rcases List.mem_cons.mp hy with hy | hy
        · exact ⟨x, List.mem_cons_self x xs, hy ▸ hfx⟩
        · rcases ih hrest y hy with ⟨x2, hx2, hfx2⟩
          exact ⟨x2, List.mem_cons_of_mem x hx2, hfx2⟩

theorem mapME_error_of_mem {α β : Type} (f : α → Except String β) :
    ∀ {xs : List α} {x : α} {e : String}, x ∈ xs → f x = Except.error e →
      ∃ msg, mapME f xs = Except.error msg := by
  intro xs
  induction xs with
  | nil => intro x e hx; simp at hx
  | cons a xs ih =>
    intro x e hx hfx
    simp only [mapME]
    cases hfa : f a with
    | error m => exact ⟨m, rfl⟩
    | ok b =>
      rcases List.mem_cons.mp hx with hx | hx
      · subst hx; rw [hfa] at hfx; cases hfx
      · rcases ih hx hfx with ⟨m, hm⟩
        rw [hm]
        exact ⟨m, rfl⟩

theorem mapME_ok_of_all {α β : Type} {f : α → Except String β} {g : α → β} :
    ∀ {xs : List α}, (∀ x ∈ xs, f x = Except.ok (g x)) →
      mapME f xs = Except.ok (xs.map g) := by
  intro xs
  induction xs with
  | nil => intro _; rfl
  | cons a xs ih =>
    intro h
    simp only [mapME]
    rw [h a (List.mem_cons_self a xs), ih (fun x hx => h x (List.mem_cons_of_mem a hx))]
    rfl

theorem mapME_append {α β : Type} (f : α → Except String β) :
    ∀ xs ys : List α, mapME f (xs ++ ys) =
      match mapME f xs with
      | Except.error e => Except.error e
      | Except.ok as =>
        match mapME f ys with
        | Except.error e => Except.error e
        | Except.ok bs => Except.ok (as ++ bs) := by
  intro xs ys
  induction xs with
  | nil => simp only [List.nil_append, mapME]; cases mapME f ys <;> rfl
  | cons a xs ih =>
    rw [List.cons_append]
    simp only [mapME]
    rw [ih]
    cases f a with
    | error e => rfl
    | ok b =>
      cases mapME f xs with
      | error e => rfl
      | ok as =>
        cases mapME f ys with
        | error e => rfl
        | ok bs => rfl

theorem sum_map_add {α : Type} (l : List α) (f g : α → Nat) :
    (l.map (fun x => f x + g x)).sum = (l.map f).sum + (l.map g).sum := by
  induction l with
  | nil => rfl
  | cons a l ih => simp only [List.map_cons, List.sum_cons, ih]; omega

theorem sum_map_indicator_of_not_mem {α : Type} [DecidableEq α] {a : α} :
    ∀ {l : List α}, a ∉ l → (l.map (fun d => if a = d then 1 else 0)).sum = 0 := by
  intro l
  induction l with
  | nil => intro _; rfl
  | cons x l ih =>
    intro h
    simp only [List.map_cons, List.sum_cons]
    rw [if_neg (fun hax => h (by rw [hax]; exact List.mem_cons_self x l)),
      ih (fun hal => h (List.mem_cons_of_mem x hal))]

theorem sum_map_indicator_of_nodup {α : Type} [DecidableEq α] {a : α} :
    ∀ {l : List α}, l.Nodup → a ∈ l →
      (l.map (fun d => if a = d then 1 else 0)).sum = 1 := by
  intro l
  induction l with
  | nil => intro _ h; simp at h
  | cons x l ih =>
    intro hnd hmem
    simp only [List.map_cons, List.sum_cons]
    rcases List.mem_cons.mp hmem with h | h
    · subst h
      rw [if_pos rfl, sum_map_indicator_of_not_mem (List.nodup_cons.mp hnd).1]
    · have hax : a ≠ x := fun hax => (List.nodup_cons.mp hnd).1 (hax ▸ h)
      rw [if_neg hax, ih (List.nodup_cons.mp hnd).2 h]

/-- The sessions column of the day cells is the per-day row count. -/
theorem mkDayCells_sessions (cols : List DateTime) (s : List Rec) :
    (mkDayCells s cols).map (fun c => c.sessions) =
      cols.map (fun d => (s.filter (fun x => truncDay x.session_date = d)).length) := by
  simp only [mkDayCells, List.map_map]
  rfl

/-- Partition identity: when the day columns are pairwise distinct and cover
every row's normalized session date, the per-day session counts sum to the
subset's row count. -/
theorem sum_day_sessions (cols : List DateTime) (hnd : cols.Nodup) :
    ∀ (sub : List Rec),
      (∀ r ∈ sub, truncDay r.session_date ∈ cols) →
      ((mkDayCells sub cols).map (fun c => c.sessions)).sum = sub.length := by
  intro sub
  induction sub with
  | nil =>
    intro _
    rw [mkDayCells_sessions]
    refine List.sum_eq_zero ?_
    intro x hx
    rcases List.mem_map.mp hx with ⟨d, _, hd⟩
    simpa using hd.symm
  | cons r t ih =>
    intro hcov
    rw [mkDayCells_sessions]
    have hstep : cols.map (fun d =>
        (((r :: t).filter (fun x => truncDay x.session_date = d)).length : Nat)) =
        cols.map (fun d => (if truncDay r.session_date = d then 1 else 0) +
          ((t.filter (fun x => truncDay x.session_date = d)).length : Nat)) := by
      refine List.map_congr_left ?_
      intro d _
      by_cases hd : truncDay r.session_date = d
      · simp [List.filter_cons, hd, Nat.add_comm]
      · simp [List.filter_cons, hd]
    rw [hstep, sum_map_add,
      sum_map_indicator_of_nodup hnd (hcov r (List.mem_cons_self r t))]
    have ht := ih (fun x hx => hcov x (List.mem_cons_of_mem r hx))
    rw [mkDayCells_sessions] at ht
    rw [ht]
    simp [Nat.add_comm]

/-! ### Structural lemmas for the builder -/

theorem isEmpty_false_iff {α : Type} (l : List α) : l.isEmpty = false ↔ l ≠ [] := by
  cases l <;> simp

theorem gsr_ok_of_ne_nil {df : List Rec} (h : df ≠ []) (name : String)
    (cols : List DateTime) (af : Bool) :
    generate_site_report df name cols af = Except.ok (mkSheet df name cols af) := by
  cases df with
  | nil => exact absurd rfl h
  | cons a l => rfl

theorem gsr_ok_inv {df : List Rec} {name : String} {cols : List DateTime}
    {af : Bool} {s : Sheet}
    (h : generate_site_report df name cols af = Except.ok s) :
    df ≠ [] ∧ s = mkSheet df name cols af := by
  cases df with
  | nil => simp [generate_site_report] at h
  | cons a l =>
    simp only [generate_site_report, List.isEmpty_cons, Bool.false_eq_true,
      if_false, Except.ok.injEq] at h
    exact ⟨by simp, h.symm⟩

theorem gsr_dayCols {df : List Rec} {name : String} {cols : List DateTime}
    {af : Bool} {s : Sheet}
    (h : generate_site_report df name cols af = Except.ok s) : s.dayCols = cols := by
  rcases gsr_ok_inv h with ⟨-, rfl⟩
  rfl

theorem sorted_dateColsOf (recs : List Rec) :
    List.Sorted dtLeProp (dateColsOf recs) :=
  List.sorted_insertionSort dtLeProp _

theorem nodup_dateColsOf (recs : List Rec) : (dateColsOf recs).Nodup :=
  (List.perm_insertionSort dtLeProp _).nodup_iff.mpr (nodup_uniqueFirst _)

theorem mem_dateColsOf (recs : List Rec) (d : DateTime) :
    d ∈ dateColsOf recs ↔ ∃ r ∈ recs, truncDay r.session_date = d := by
  unfold dateColsOf
  rw [(List.perm_insertionSort dtLeProp _).mem_iff, mem_uniqueFirst, List.mem_map]

theorem dateColsOf_eq_nil {recs : List Rec} (h : dateColsOf recs = []) :
    recs = [] := by
  cases recs with
  | nil => rfl
  | cons r t =>
    exfalso
    have hmem : truncDay r.session_date ∈ dateColsOf (r :: t) :=
      (mem_dateColsOf _ _).mpr ⟨r, List.mem_cons_self r t, rfl⟩
    rw [h] at hmem
    simp at hmem

/-- The sheets a successful run writes, in workbook order: the combined
"Report" sheet exactly when more than one site is selected, one sheet per
selected site with a nonempty subset, and — exactly when `aggregate_floors`
and `tab_per_building` are both set — one sheet per distinct building of the
selected sites' records, prefixed with `"Bldg - "` and truncated to 31
characters.  All share the day columns `dateColsOf df`. -/
def emittedSheets (df : List Rec) (selected_sites : List String)
    (aggregate_floors tab_per_building : Bool) : List Sheet :=
  let cols := dateColsOf df
  (if 1 < selected_sites.length then
    [mkSheet (df.filter (fun r => selected_sites.contains r.location))
      "Report" cols aggregate_floors]
  else [])
  ++ (selected_sites.filter
      (fun site => !(List.isEmpty (df.filter (fun r => r.location = site))))).map
      (fun site => mkSheet (df.filter (fun r => r.location = site)) site cols aggregate_floors)
  ++ (if aggregate_floors && tab_per_building then
      (strSort (uniqueFirst ((df.filter (fun r => selected_sites.contains r.location)).map
          (fun r => r.building)))).map
        (fun b => mkSheet
          ((df.filter (fun r => selected_sites.contains r.location)).filter
            (fun r => r.building = b))
          (strTake ("Bldg - " ++ b) 31) cols true)
    else [])

theorem mem_strSort (l : List String) (b : String) : b ∈ strSort l ↔ b ∈ l := by
  unfold strSort
  exact (List.perm_insertionSort strLeProp l).mem_iff

theorem buildSheets_eq (df : List Rec) (sites : List String) (af tpb : Bool)
    (hagg : 1 < sites.length → df.filter (fun r => sites.contains r.location) ≠ []) :
    buildSheets df sites af tpb = Except.ok (emittedSheets df sites af tpb) := by
  have hsite : mapME
      (fun site => generate_site_report (df.filter (fun r => r.location = site))
        site (dateColsOf df) af)
      (sites.filter
        (fun site => !(List.isEmpty (df.filter (fun r => r.location = site))))) =
      Except.ok ((sites.filter
        (fun site => !(List.isEmpty (df.filter (fun r => r.location = site))))).map
        (fun site => mkSheet (df.filter (fun r => r.location = site)) site (dateColsOf df) af)) := by
    refine mapME_ok_of_all ?_
    intro site hmem
    have hpred := (List.mem_filter.mp hmem).2
    simp only [Bool.not_eq_eq_eq_not, Bool.not_true] at hpred
    exact gsr_ok_of_ne_nil ((isEmpty_false_iff _).mp hpred) _ _ _
  have hbfilter : ((strSort (uniqueFirst ((df.filter (fun r => sites.contains r.location)).map
      (fun r => r.building)))).filter
      (fun b => !(List.isEmpty ((df.filter (fun r => sites.contains r.location)).filter
        (fun r => r.building = b))))) =
      strSort (uniqueFirst ((df.filter (fun r => sites.contains r.location)).map
        (fun r => r.building))) := by
    refine List.filter_eq_self.mpr ?_
    intro b hb
    rw [mem_strSort, mem_uniqueFirst, List.mem_map] at hb
    rcases hb with ⟨r, hr, hrb⟩
    have hne : (df.filter (fun r => sites.contains r.location)).filter
        (fun x => x.building = b) ≠ [] := by
      intro hnil
      have : r ∈ (df.filter (fun r => sites.contains r.location)).filter
          (fun x => x.building = b) := List.mem_filter.mpr ⟨hr, by simp [hrb]⟩
      rw [hnil] at this
      simp at this
    simp only [Bool.not_eq_eq_eq_not, Bool.not_true]
    exact (isEmpty_false_iff _).mpr hne
  have hbldg : mapME
      (fun b => generate_site_report
        ((df.filter (fun r => sites.contains r.location)).filter (fun r => r.building = b))
        (strTake ("Bldg - " ++ b) 31) (dateColsOf df) true)
      (strSort (uniqueFirst ((df.filter (fun r => sites.contains r.location)).map
        (fun r => r.building)))) =
      Except.ok ((strSort (uniqueFirst ((df.filter (fun r => sites.contains r.location)).map
        (fun r => r.building)))).map
        (fun b => mkSheet
          ((df.filter (fun r => sites.contains r.location)).filter (fun r => r.building = b))
          (strTake ("Bldg - " ++ b) 31) (dateColsOf df) true)) := by
    refine mapME_ok_of_all ?_
    intro b hb
    rw [mem_strSort, mem_uniqueFirst, List.mem_map] at hb
    rcases hb with ⟨r, hr, hrb⟩
    refine gsr_ok_of_ne_nil ?_ _ _ _
    intro hnil
    have : r ∈ (df.filter (fun r => sites.contains r.location)).filter
        (fun x => x.building = b) := List.mem_filter.mpr ⟨hr, by simp [hrb]⟩
    rw [hnil] at this
    simp at this
  simp only [buildSheets, emittedSheets]
  by_cases hlen : 1 < sites.length
  · rw [if_pos hlen, if_pos hlen]
    simp only [gsr_ok_of_ne_nil (hagg hlen), hsite, exBind_ok]
    by_cases htab : (af && tpb) = true
    · rw [if_pos htab, if_pos htab]
      simp only [hbfilter, hbldg, exBind_ok]
    · rw [if_neg htab, if_neg htab]
      simp
  · rw [if_neg hlen, if_neg hlen]
    simp only [hsite, exBind_ok]
    by_cases htab : (af && tpb) = true
    · rw [if_pos htab, if_pos htab]
      simp only [hbfilter, hbldg, exBind_ok]
    · rw [if_neg htab, if_neg htab]
      simp

theorem buildSheets_ok_inv {df : List Rec} {sites : List String} {af tpb : Bool}
    {sheets : List Sheet}
    (h : buildSheets df sites af tpb = Except.ok sheets) :
    sheets = emittedSheets df sites af tpb := by
  have hagg : 1 < sites.length → df.filter (fun r => sites.contains r.location) ≠ [] := by
    intro hlen hnil
    have : buildSheets df sites af tpb = Except.error "IndexError: empty subset" := by
      simp only [buildSheets]
      rw [if_pos hlen, hnil]
      rfl
    rw [this] at h
    cases h
  rw [buildSheets_eq df sites af tpb hagg] at h
  cases h
  rfl

theorem mem_emittedSheets_dayCols {df : List Rec} {sites : List String}
    {af tpb : Bool} {s : Sheet} (h : s ∈ emittedSheets df sites af tpb) :
    s.dayCols = dateColsOf df := by
  simp only [emittedSheets, List.mem_append] at h
  rcases h with (h | h) | h
  · rcases List.mem_ite_nil_right.mp h with ⟨-, h⟩
    rw [List.mem_singleton.mp h]
    rfl
  · rcases List.mem_map.mp h with ⟨site, -, hs⟩
    rw [← hs]
    rfl
  · rcases List.mem_ite_nil_right.mp h with ⟨-, h⟩
    rcases List.mem_map.mp h with ⟨b, -, hs⟩
    rw [← hs]
    rfl

theorem mkRecs_shape : ∀ (data : List RawRec) (sts ens : List DateTime) (r : Rec),
    r ∈ mkRecs data sts ens →
    r.building = buildingOf r.sublocation ∧ r.session_date = r.end_time
  | a :: as, st :: sts, en :: ens, r => by
    intro h
    rcases List.mem_cons.mp h with h | h
    · subst h
      exact ⟨rfl, rfl⟩
    · exact mkRecs_shape as sts ens r h
  | [], _, _, r => by intro h; simp [mkRecs] at h
  | _ :: _, [], _, r => by intro h; simp [mkRecs] at h
  | _ :: _, _ :: _, [], r => by intro h; simp [mkRecs] at h

theorem normalizeAll_ok_inv {data : List RawRec} {recs : List Rec}
    (h : normalizeAll data = Except.ok recs) :
    ∃ sts ens, recs = mkRecs data sts ens := by
  unfold normalizeAll at h
  cases hst : mapME (fun r => normalize_datetime r.start_time) data with
  | error e => rw [hst] at h; cases h
  | ok sts =>
    rw [hst] at h
    cases hen : mapME (fun r => normalize_datetime r.end_time) data with
    | error e => rw [hen] at h; cases h
    | ok ens =>
      rw [hen] at h
      cases h
      exact ⟨sts, ens, rfl⟩

theorem filterByDates_mem (recs : List Rec) (dfrom dto : Option DateTime) (r : Rec) :
    r ∈ filterByDates recs dfrom dto ↔
      r ∈ recs ∧ (∀ d, dfrom = some d → dtLe d r.session_date = true) ∧
        (∀ d, dto = some d → dtLe r.session_date d = true) := by
  unfold filterByDates
  cases dfrom with
  | none =>
    cases dto with
    | none => simp
    | some b => simp [List.mem_filter, and_assoc]
  | some a =>
    cases dto with
    | none => simp [List.mem_filter, and_assoc]
    | some b =>
      constructor
      · intro h
        have h2 := List.mem_filter.mp h
        have h1 := List.mem_filter.mp h2.1
        refine ⟨h1.1, fun d hd => ?_, fun d hd => ?_⟩
        · cases hd; exact h1.2
        · cases hd; exact h2.2
      · rintro ⟨hmem, h1, h2⟩
        exact List.mem_filter.mpr ⟨List.mem_filter.mpr ⟨hmem, h1 a rfl⟩, h2 b rfl⟩

theorem usersOf_eq_toFinset (df : List Rec) :
    usersOf df = (df.map (fun r => r.client_mac)).toFinset.card := by
  rw [List.card_toFinset]
  rfl

/-- The day cells of a subset, written with the distinct-count as a
`Finset` cardinality. -/
theorem mkDayCells_spec (sub : List Rec) (cols : List DateTime) :
    mkDayCells sub cols = cols.map (fun d =>
      { sessions := (sub.filter (fun r => truncDay r.session_date = d)).length,
        users := ((sub.filter (fun r => truncDay r.session_date = d)).map
          (fun r => r.client_mac)).toFinset.card : DayCell }) := by
  unfold mkDayCells
  refine List.map_congr_left ?_
  intro d _
  simp only [usersOf_eq_toFinset]

theorem splitFirstAt_eq_takeWhile (cs : List Char) :
    splitFirstAt '|' cs = cs.takeWhile (fun c => c ≠ '|') := by
  induction cs with
  | nil => rfl
  | cons x xs ih =>
    by_cases hx : x = '|'
    · simp [splitFirstAt, List.takeWhile_cons, hx]
    · simp [splitFirstAt, List.takeWhile_cons, hx, ih]

/-! ### Claim theorems -/

/-- C7: `normalize_datetime` tries the pattern `YYYY-MM-DD HH:MM:SS` first
and then `MM/DD/YY HH:MM`, returning the result of the first pattern that
parses, and raises an invalid-format error if and only if neither pattern
matches; `normalize("2024-03-01 13:45:00")` and `normalize("3/1/24 13:45")`
both succeed and denote the same calendar date, and
`normalize("not-a-date")` fails. -/
theorem C7_normalize_order :
    (∀ (v : String) (t : DateTime), pYmdHms v.toList = some t →
      normalize_datetime v = Except.ok t) ∧
    (∀ (v : String) (t : DateTime), pYmdHms v.toList = none →
      pMdyHm v.toList = some t → normalize_datetime v = Except.ok t) ∧
    (∀ v : String, (∃ e, normalize_datetime v = Except.error e) ↔
      (pYmdHms v.toList = none ∧ pMdyHm v.toList = none)) ∧
    normalize_datetime "2024-03-01 13:45:00" = Except.ok
      { year := 2024, month := 3, day := 1, hour := 13, minute := 45, second := 0 } ∧
    normalize_datetime "3/1/24 13:45" = Except.ok
      { year := 2024, month := 3, day := 1, hour := 13, minute := 45, second := 0 } ∧
    truncDay { year := 2024, month := 3, day := 1, hour := 13, minute := 45, second := 0 } =
      truncDay { year := 2024, month := 3, day := 1, hour := 13, minute := 45, second := 0 } ∧
    (∃ e, normalize_datetime "not-a-date" = Except.error e) := by
  refine ⟨?_, ?_, ?_, rfl, rfl, rfl, ⟨_, rfl⟩⟩
  · intro v t h
    unfold normalize_datetime
    rw [h]
  · intro v t h1 h2
    unfold normalize_datetime
    rw [h1, h2]
  · intro v
    constructor
    · rintro ⟨e, he⟩
      unfold normalize_datetime at he
      cases h1 : pYmdHms v.toList with
      | some t => rw [h1] at he; cases he
      | none =>
        rw [h1] at he
        cases h2 : pMdyHm v.toList with
        | some t => rw [h2] at he; cases he
        | none => exact ⟨rfl, rfl⟩
    · rintro ⟨h1, h2⟩
      exact ⟨_, by unfold normalize_datetime; rw [h1, h2]⟩

/-- Witness for C7: the second pattern is reached and used on
`"3/1/24 13:45"` after the first fails on it. -/
theorem C7_normalize_order_witness :
    pYmdHms ("3/1/24 13:45").toList = none ∧
    normalize_datetime "3/1/24 13:45" = Except.ok
      { year := 2024, month := 3, day := 1, hour := 13, minute := 45, second := 0 } :=
  ⟨rfl, C7_normalize_order.2.1 "3/1/24 13:45" _ rfl rfl⟩

/-- C8: for every record, the derived `building` equals the substring of
`sublocation` before the first `|` (the whole string when no `|` occurs),
with surrounding whitespace stripped; `"HQ|3rd Floor"` yields `"HQ"` and
`"Annex"` yields `"Annex"`. -/
theorem C8_building_derivation :
    (∀ s : String, buildingOf s = pyStrip (String.mk (s.toList.takeWhile (fun c => c ≠ '|')))) ∧
    (∀ s : String, (∀ c ∈ s.toList, c ≠ '|') → buildingOf s = pyStrip s) ∧
    (∀ (data : List RawRec) (sts ens : List DateTime) (r : Rec),
      r ∈ mkRecs data sts ens → r.building = buildingOf r.sublocation) ∧
    buildingOf "HQ|3rd Floor" = "HQ" ∧
    buildingOf "Annex" = "Annex" ∧
    buildingOf "  HQ  |3rd Floor" = "HQ" := by
  have h1 : ∀ s : String, buildingOf s = pyStrip (String.mk (s.toList.takeWhile (fun c => c ≠ '|'))) := by
    intro s
    unfold buildingOf
    rw [splitFirstAt_eq_takeWhile]
  refine ⟨h1, ?_, ?_, rfl, rfl, rfl⟩
  · intro s hs
    rw [h1 s, List.takeWhile_eq_self_iff.mpr (by simpa using hs)]
    cases s
    rfl
  · intro data sts ens r hr
    exact (mkRecs_shape data sts ens r hr).1

/-- Witness for C8: the no-pipe case applied to `"Annex"`. -/
theorem C8_building_derivation_witness :
    buildingOf "Annex" = pyStrip "Annex" :=
  C8_building_derivation.2.1 "Annex" (by decide)

/-- A concrete raw record whose `end_time` has a nonzero time of day. -/
def c2raw : RawRec :=
  { location := "Site A", sublocation := "HQ|3rd Floor", client_mac := "AA:BB",
    ssid := "Guest", start_time := "2024-03-01 12:00:00",
    end_time := "2024-03-01 13:45:00" }

/-- The derived record the builder produces for `c2raw`. -/
def c2rec : Rec :=
  { location := "Site A", sublocation := "HQ|3rd Floor", client_mac := "AA:BB",
    ssid := "Guest",
    start_time := { year := 2024, month := 3, day := 1, hour := 12, minute := 0, second := 0 },
    end_time := { year := 2024, month := 3, day := 1, hour := 13, minute := 45, second := 0 },
    session_date := { year := 2024, month := 3, day := 1, hour := 13, minute := 45, second := 0 },
    building := "HQ" }

/-- C2 counterexample: the derived `session_date` is the full `end_time`,
not its truncation to the calendar day, and a record whose day-truncated
`session_date` equals `date_to` (the day 2024-03-01) is dropped by the
filter because its full-timestamp `session_date` exceeds that bound. -/
theorem C2_counterexample :
    normalizeAll [c2raw] = Except.ok [c2rec] ∧
    c2rec.session_date ≠ truncDay c2rec.end_time ∧
    truncDay c2rec.end_time =
      { year := 2024, month := 3, day := 1, hour := 0, minute := 0, second := 0 } ∧
    filterByDates [c2rec] none
      (some { year := 2024, month := 3, day := 1, hour := 0, minute := 0, second := 0 }) = [] :=
  ⟨rfl, by decide, rfl, rfl⟩

/-- C2 amended: the derived `session_date` equals `end_time` itself (not
truncated to the day), and the date-range filter is inclusive on this
full-timestamp `session_date`: a record is kept iff it passes each supplied
bound on the closed side, a record whose `session_date` exactly equals both
bounds is retained, and an omitted bound is unbounded on that side. -/
theorem C2_session_date_amended :
    (∀ (data : List RawRec) (recs : List Rec), normalizeAll data = Except.ok recs →
      ∀ r ∈ recs, r.session_date = r.end_time) ∧
    (∀ (recs : List Rec) (dfrom dto : Option DateTime) (r : Rec),
      r ∈ filterByDates recs dfrom dto ↔
        r ∈ recs ∧ (∀ d, dfrom = some d → dtLe d r.session_date = true) ∧
          (∀ d, dto = some d → dtLe r.session_date d = true)) ∧
    (∀ (recs : List Rec) (r : Rec) (d : DateTime), r ∈ recs → r.session_date = d →
      r ∈ filterByDates recs (some d) (some d)) := by
  refine ⟨?_, filterByDates_mem, ?_⟩
  · intro data recs h r hr
    rcases normalizeAll_ok_inv h with ⟨sts, ens, rfl⟩
    exact (mkRecs_shape data sts ens r hr).2
  · intro recs r d hmem hd
    subst hd
    exact (filterByDates_mem recs _ _ r).mpr
      ⟨hmem, fun d2 hd2 => by cases hd2; exact dtLe_refl _,
        fun d2 hd2 => by cases hd2; exact dtLe_refl _⟩

/-- Witness for C2 (amended): the concrete record keeps its full-timestamp
`session_date` and is retained when both bounds equal that timestamp. -/
theorem C2_session_date_amended_witness :
    c2rec.session_date = c2rec.end_time ∧
    c2rec ∈ filterByDates [c2rec] (some c2rec.session_date) (some c2rec.session_date) :=
  ⟨C2_session_date_amended.1 [c2raw] [c2rec] rfl c2rec (List.mem_singleton.mpr rfl),
   C2_session_date_amended.2.2 [c2rec] c2rec c2rec.session_date
     (List.mem_singleton.mpr rfl) rfl⟩

/-- C6 counterexample: with two selected sites and a `date_from` bound that
empties the filtered set (so the day-column list is empty), the run raises
instead of producing a title/summary-only sheet; and directly, rendering
the empty subset with the empty day-column list fails. -/
theorem C6_counterexample :
    generate_excel_report [c2raw] ["Site A", "Site B"]
      (some { year := 2025, month := 1, day := 1, hour := 0, minute := 0, second := 0 })
      none false false = Except.error "IndexError: empty subset" ∧
    dateColsOf (filterByDates [c2rec]
      (some { year := 2025, month := 1, day := 1, hour := 0, minute := 0, second := 0 })
      none) = [] ∧
    generate_site_report ([] : List Rec) "Site A" ([] : List DateTime) false =
      Except.error "IndexError: empty subset" :=
  ⟨rfl, rfl, rfl⟩

/-- C6 amended: an empty day-column list arises only from an empty filtered
subset, and rendering a sheet then fails (the source's title-block
computation `df['start_time'].dt.strftime('%B').mode()[0]` and the
time-stamp box `timeset[0]` both index into empties), rather than producing
a sheet with title/summary blocks and no day grid. -/
theorem C6_empty_day_columns_amended (df : List Rec) (name : String) (af : Bool)
    (h : dateColsOf df = []) :
    ∃ e, generate_site_report df name (dateColsOf df) af = Except.error e := by
  rw [dateColsOf_eq_nil h]
  exact ⟨_, rfl⟩

/-- Witness for C6 (amended) at the empty record set. -/
theorem C6_empty_day_columns_amended_witness :
    dateColsOf ([] : List Rec) = [] ∧
    ∃ e, generate_site_report ([] : List Rec) "Report"
      (dateColsOf ([] : List Rec)) false = Except.error e :=
  ⟨rfl, C6_empty_day_columns_amended [] "Report" false rfl⟩

/-- C9: if any record's `start_time` or `end_time` fails timestamp
normalization, `generate_excel_report` fails outright: the normalization
pass (lines 62-64) precedes the creation of the workbook on line 80, so the
error propagates before any output exists and the run yields no workbook. -/
theorem C9_atomic_failure (data : List RawRec) (sites : List String)
    (dfrom dto : Option DateTime) (af tpb : Bool) (r : RawRec)
    (hr : r ∈ data)
    (hbad : (∃ e, normalize_datetime r.start_time = Except.error e) ∨
            (∃ e, normalize_datetime r.end_time = Except.error e)) :
    ∃ e, generate_excel_report data sites dfrom dto af tpb = Except.error e := by
  have hna : ∃ e, normalizeAll data = Except.error e := by
    rcases hbad with ⟨e, he⟩ | ⟨e, he⟩
    · rcases mapME_error_of_mem (fun q => normalize_datetime q.start_time) hr he with ⟨m, hm⟩
      exact ⟨m, by unfold normalizeAll; rw [hm]⟩
    · unfold normalizeAll
      cases hst : mapME (fun r => normalize_datetime r.start_time) data with
      | error e2 => exact ⟨e2, rfl⟩
      | ok sts =>
        rcases mapME_error_of_mem (fun q => normalize_datetime q.end_time) hr he with ⟨m, hm⟩
        exact ⟨m, by rw [hm]⟩
  rcases hna with ⟨e, he⟩
  unfold generate_excel_report
  rw [he]
  exact ⟨e, rfl⟩

/-- A raw record whose `end_time` matches neither timestamp pattern. -/
def c9raw : RawRec :=
  { location := "Site A", sublocation := "HQ|1", client_mac := "AA:BB",
    ssid := "Guest", start_time := "2024-03-01 12:00:00",
    end_time := "not-a-date" }

/-- Witness for C9 at a concrete record set with one bad timestamp. -/
theorem C9_atomic_failure_witness :
    c9raw ∈ [c9raw] ∧
    ∃ e, generate_excel_report [c9raw] ["Site A"] none none false false =
      Except.error e :=
  ⟨List.mem_singleton.mpr rfl,
   C9_atomic_failure [c9raw] ["Site A"] none none false false c9raw
     (List.mem_singleton.mpr rfl)
     (Or.inr ⟨"Invalid date format: not-a-date", rfl⟩)⟩

/-- A CSV none of whose rows contains the four trigger header names. -/
def c3NoHeader : List (List String) :=
  [["a", "b", "c", "d"], ["1", "2", "3", "4"]]

/-- A CSV whose header row holds the four trigger names scattered among
other expected names, in permuted order. -/
def c3Permuted : List (List String) :=
  [["junk"],
   ["device_mac", "ssid", "location", "associate_vlan", "sublocation", "client_mac"],
   [" 0:1 ", "Guest", "Site A", "10", "HQ|1", "AA:BB"]]

/-- A CSV with two rows that both contain the four trigger names: the first
one is the header and the second is parsed as data against it. -/
def c3TwoHeaders : List (List String) :=
  [["location", "sublocation", "associate_vlan", "device_mac"],
   ["device_mac", "location", "sublocation", "associate_vlan"],
   ["L1", "S1", "V1", "D1"]]

/-- C3: the first row containing all four trigger names, in any order and
position, becomes the header and subsequent rows are parsed against it (the
trimmed values land under the permuted columns); but a file with no such
row makes `csv_import` raise `UnboundLocalError` (the `headers` variable is
never assigned) instead of contributing zero records. -/
theorem C3_header_detection :
    csv_import c3NoHeader =
      Except.error "UnboundLocalError: local variable referenced before assignment" ∧
    csv_import c3Permuted = Except.ok
      [[("location", "Site A"), ("sublocation", "HQ|1"), ("associate_vlan", "10"),
        ("device_mac", "0:1"), ("client_mac", "AA:BB"), ("ssid", "Guest")]] ∧
    csv_import c3TwoHeaders = Except.ok
      [[("location", "device_mac"), ("sublocation", "location"),
        ("associate_vlan", "sublocation"), ("device_mac", "associate_vlan")],
       [("location", "L1"), ("sublocation", "S1"), ("associate_vlan", "V1"),
        ("device_mac", "D1")]] :=
  ⟨rfl, rfl, rfl⟩

/-- C1: every rendered cell, at every granularity of a sheet (whole sheet,
location block, ssid row, building/sublocation row, and each per-day cell),
carries `sessions` equal to the row count of the corresponding subset and
`users` equal to the number of distinct `client_mac` values of that subset;
and since the day columns are distinct and cover the dates of every row
(they are exactly the distinct session dates of the filtered superset), the
per-day session counts of the sheet and of each location block sum to the
respective total session count. -/
theorem C1_uniform_aggregation (df : List Rec) (name : String)
    (cols : List DateTime) (af : Bool) (sheet : Sheet)
    (hok : generate_site_report df name cols af = Except.ok sheet)
    (hnd : cols.Nodup)
    (hcov : ∀ r ∈ df, truncDay r.session_date ∈ cols) :
    (sheet.totalSessions = df.length ∧
     sheet.totalUsers = (df.map (fun r => r.client_mac)).toFinset.card ∧
     sheet.dayCells = cols.map (fun d =>
       { sessions := (df.filter (fun r => truncDay r.session_date = d)).length,
         users := ((df.filter (fun r => truncDay r.session_date = d)).map
           (fun r => r.client_mac)).toFinset.card }) ∧
     (sheet.dayCells.map (fun c => c.sessions)).sum = sheet.totalSessions) ∧
    (∀ blk ∈ sheet.locations,
      blk.sessions = (df.filter (fun r => r.location = blk.location)).length ∧
      blk.users = ((df.filter (fun r => r.location = blk.location)).map
        (fun r => r.client_mac)).toFinset.card ∧
      blk.dayCells = cols.map (fun d =>
        { sessions := ((df.filter (fun r => r.location = blk.location)).filter
            (fun r => truncDay r.session_date = d)).length,
          users := (((df.filter (fun r => r.location = blk.location)).filter
            (fun r => truncDay r.session_date = d)).map
            (fun r => r.client_mac)).toFinset.card }) ∧
      (∀ row ∈ blk.ssidRows,
        row.sessions = ((df.filter (fun r => r.location = blk.location)).filter
          (fun r => r.ssid = row.label)).length ∧
        row.users = (((df.filter (fun r => r.location = blk.location)).filter
          (fun r => r.ssid = row.label)).map (fun r => r.client_mac)).toFinset.card ∧
        row.dayCells = cols.map (fun d =>
          { sessions := (((df.filter (fun r => r.location = blk.location)).filter
              (fun r => r.ssid = row.label)).filter
              (fun r => truncDay r.session_date = d)).length,
            users := ((((df.filter (fun r => r.location = blk.location)).filter
              (fun r => r.ssid = row.label)).filter
              (fun r => truncDay r.session_date = d)).map
              (fun r => r.client_mac)).toFinset.card })) ∧
      (∀ row ∈ blk.subRows,
        row.sessions = ((df.filter (fun r => r.location = blk.location)).filter
          (fun r => groupKey af r = row.label)).length ∧
        row.users = (((df.filter (fun r => r.location = blk.location)).filter
          (fun r => groupKey af r = row.label)).map
          (fun r => r.client_mac)).toFinset.card ∧
        row.dayCells = cols.map (fun d =>
          { sessions := (((df.filter (fun r => r.location = blk.location)).filter
              (fun r => groupKey af r = row.label)).filter
              (fun r => truncDay r.session_date = d)).length,
            users := ((((df.filter (fun r => r.location = blk.location)).filter
              (fun r => groupKey af r = row.label)).filter
              (fun r => truncDay r.session_date = d)).map
              (fun r => r.client_mac)).toFinset.card })) ∧
      (blk.dayCells.map (fun c => c.sessions)).sum = blk.sessions) := by
  rcases gsr_ok_inv hok with ⟨hne, hsheet⟩
  subst hsheet
  constructor
  · refine ⟨rfl, usersOf_eq_toFinset df, mkDayCells_spec df cols, ?_⟩
    exact sum_day_sessions cols hnd df hcov
  · intro blk hblk
    rcases List.mem_map.mp hblk with ⟨loc, hloc, hblkEq⟩
    subst hblkEq
    have hsub : ∀ r ∈ df.filter (fun r => r.location = loc), r ∈ df :=
      fun r hr => (List.mem_filter.mp hr).1
    refine ⟨rfl, usersOf_eq_toFinset _, mkDayCells_spec _ cols, ?_, ?_, ?_⟩
    · intro row hrow
      rcases List.mem_map.mp hrow with ⟨s, hs, hrowEq⟩
      subst hrowEq
      exact ⟨rfl, usersOf_eq_toFinset _, mkDayCells_spec _ cols⟩
    · intro row hrow
      rcases List.mem_map.mp hrow with ⟨n, hn, hrowEq⟩
      subst hrowEq
      exact ⟨rfl, usersOf_eq_toFinset _, mkDayCells_spec _ cols⟩
    · exact sum_day_sessions cols hnd _ (fun r hr => hcov r (hsub r hr))

/-- Concrete records for the aggregation witness (same site, two days). -/
def w1a : Rec :=
  { location := "Site A", sublocation := "HQ|1", client_mac := "AA", ssid := "Guest",
    start_time := { year := 2024, month := 1, day := 1, hour := 8, minute := 0, second := 0 },
    end_time := { year := 2024, month := 1, day := 1, hour := 8, minute := 30, second := 0 },
    session_date := { year := 2024, month := 1, day := 1, hour := 8, minute := 30, second := 0 },
    building := "HQ" }

def w1b : Rec :=
  { location := "Site A", sublocation := "HQ|2", client_mac := "BB", ssid := "Guest",
    start_time := { year := 2024, month := 1, day := 2, hour := 9, minute := 0, second := 0 },
    end_time := { year := 2024, month := 1, day := 2, hour := 9, minute := 15, second := 0 },
    session_date := { year := 2024, month := 1, day := 2, hour := 9, minute := 15, second := 0 },
    building := "HQ" }

def w1df : List Rec := [w1a, w1b]

/-- Witness for C1 on a two-record, two-day subset. -/
theorem C1_uniform_aggregation_witness :
    (dateColsOf w1df).Nodup ∧
    ((mkSheet w1df "Site A" (dateColsOf w1df) false).dayCells.map
      (fun c => c.sessions)).sum =
      (mkSheet w1df "Site A" (dateColsOf w1df) false).totalSessions :=
  ⟨by decide,
   (C1_uniform_aggregation w1df "Site A" (dateColsOf w1df) false _ rfl
     (by decide) (by decide)).1.2.2.2⟩

/-- C4: a successful build emits exactly these sheets in workbook order —
the combined "Report" sheet scoped to the union of the selected sites iff
more than one site is selected; one sheet per selected site, skipping (not
aborting on) a site whose subset is empty; and, iff both `aggregate_floors`
and `tab_per_building` are set, one sheet per distinct `building` value of
the selected sites' records, named `"Bldg - "` plus the building name and
truncated to 31 characters.  The hypothesis excludes the run that crashes
before emitting anything (more than one selected site but no matching rows,
the C6 failure mode). -/
theorem C4_sheet_emission (df : List Rec) (sites : List String) (af tpb : Bool)
    (hagg : 1 < sites.length → df.filter (fun r => sites.contains r.location) ≠ []) :
    buildSheets df sites af tpb = Except.ok (
      (if 1 < sites.length then
        [mkSheet (df.filter (fun r => sites.contains r.location)) "Report"
          (dateColsOf df) af]
      else [])
      ++ (sites.filter
          (fun site => !(List.isEmpty (df.filter (fun r => r.location = site))))).map
          (fun site => mkSheet (df.filter (fun r => r.location = site)) site
            (dateColsOf df) af)
      ++ (if af && tpb then
          (strSort (uniqueFirst ((df.filter (fun r => sites.contains r.location)).map
              (fun r => r.building)))).map
            (fun b => mkSheet
              ((df.filter (fun r => sites.contains r.location)).filter
                (fun r => r.building = b))
              (strTake ("Bldg - " ++ b) 31) (dateColsOf df) true)
        else [])) :=
  buildSheets_eq df sites af tpb hagg

/-- Concrete records for the sheet-emission witness (two sites, distinct
buildings). -/
def w4a : Rec :=
  { location := "Alpha", sublocation := "A1|1", client_mac := "AA", ssid := "S",
    start_time := { year := 2024, month := 2, day := 1, hour := 8, minute := 0, second := 0 },
    end_time := { year := 2024, month := 2, day := 1, hour := 9, minute := 0, second := 0 },
    session_date := { year := 2024, month := 2, day := 1, hour := 9, minute := 0, second := 0 },
    building := "A1" }

def w4b : Rec :=
  { location := "Beta", sublocation := "B1|1", client_mac := "BB", ssid := "S",
    start_time := { year := 2024, month := 2, day := 2, hour := 8, minute := 0, second := 0 },
    end_time := { year := 2024, month := 2, day := 2, hour := 9, minute := 0, second := 0 },
    session_date := { year := 2024, month := 2, day := 2, hour := 9, minute := 0, second := 0 },
    building := "B1" }

def w4df : List Rec := [w4a, w4b]

/-- Witness for C4 with two selected sites and both aggregation flags on. -/
theorem C4_sheet_emission_witness :
    buildSheets w4df ["Alpha", "Beta"] true true = Except.ok (
      (if 1 < (["Alpha", "Beta"] : List String).length then
        [mkSheet (w4df.filter (fun r => (["Alpha", "Beta"] : List String).contains r.location))
          "Report" (dateColsOf w4df) true]
      else [])
      ++ ((["Alpha", "Beta"] : List String).filter
          (fun site => !(List.isEmpty (w4df.filter (fun r => r.location = site))))).map
          (fun site => mkSheet (w4df.filter (fun r => r.location = site)) site
            (dateColsOf w4df) true)
      ++ (if true && true then
          (strSort (uniqueFirst ((w4df.filter
              (fun r => (["Alpha", "Beta"] : List String).contains r.location)).map
              (fun r => r.building)))).map
            (fun b => mkSheet
              ((w4df.filter (fun r => (["Alpha", "Beta"] : List String).contains r.location)).filter
                (fun r => r.building = b))
              (strTake ("Bldg - " ++ b) 31) (dateColsOf w4df) true)
        else [])) :=
  C4_sheet_emission w4df ["Alpha", "Beta"] true true (by decide)

/-- C5: the day columns of a run are the sorted, deduplicated day-truncated
`session_date` values present in the post-filter record set, and every
sheet of a successful run carries this identical day-column list. -/
theorem C5_day_columns (data : List RawRec) (sites : List String)
    (dfrom dto : Option DateTime) (af tpb : Bool) (recs : List Rec)
    (sheets : List Sheet)
    (hnorm : normalizeAll data = Except.ok recs)
    (hok : generate_excel_report data sites dfrom dto af tpb = Except.ok sheets) :
    List.Sorted dtLeProp (dateColsOf (filterByDates recs dfrom dto)) ∧
    (dateColsOf (filterByDates recs dfrom dto)).Nodup ∧
    (∀ d, d ∈ dateColsOf (filterByDates recs dfrom dto) ↔
      ∃ r ∈ filterByDates recs dfrom dto, truncDay r.session_date = d) ∧
    (∀ s ∈ sheets, s.dayCols = dateColsOf (filterByDates recs dfrom dto)) := by
  refine ⟨sorted_dateColsOf _, nodup_dateColsOf _, fun d => mem_dateColsOf _ d, ?_⟩
  have hb : buildSheets (filterByDates recs dfrom dto) sites af tpb =
      Except.ok sheets := by
    unfold generate_excel_report at hok
    rw [hnorm] at hok
    exact hok
  have hsheets := buildSheets_ok_inv hb
  subst hsheets
  intro s hs
  exact mem_emittedSheets_dayCols hs

/-- Raw input and derived record for the day-column witness. -/
def w5raw : RawRec :=
  { location := "Alpha", sublocation := "B|1", client_mac := "AA", ssid := "S",
    start_time := "2024-01-01 08:00:00", end_time := "2024-01-01 08:30:00" }

def w5rec : Rec :=
  { location := "Alpha", sublocation := "B|1", client_mac := "AA", ssid := "S",
    start_time := { year := 2024, month := 1, day := 1, hour := 8, minute := 0, second := 0 },
    end_time := { year := 2024, month := 1, day := 1, hour := 8, minute := 30, second := 0 },
    session_date := { year := 2024, month := 1, day := 1, hour := 8, minute := 30, second := 0 },
    building := "B" }

/-- Witness for C5 on a one-record run: the single emitted sheet carries
exactly the run's day-column list. -/
theorem C5_day_columns_witness :
    (dateColsOf (filterByDates [w5rec] none none)).Nodup ∧
    (mkSheet [w5rec] "Alpha" (dateColsOf [w5rec]) false).dayCols =
      dateColsOf (filterByDates [w5rec] none none) := by
  have h := C5_day_columns [w5raw] ["Alpha"] none none false false [w5rec]
    [mkSheet [w5rec] "Alpha" (dateColsOf [w5rec]) false] rfl rfl
  exact ⟨h.2.1, h.2.2.2 _ (List.mem_singleton.mpr rfl)⟩

/-- The CSV sources `ingest_files` recognizes, in processing order: the
content of each input named `*.csv`, and the `*.csv` entries of each input
named `*.zip`; everything else contributes nothing. -/
def recognizedCsvSources : List (String × FileContent) → List (List (List String))
  | [] => []
  | (name, c) :: rest =>
    (if csvExt name then
      match c with
      | FileContent.csvFile rows => [rows]
      | FileContent.zipFile _ => []
    else if zipExt name then
      match c with
      | FileContent.zipFile entries =>
        (entries.filter (fun e => csvExt e.1)).map (fun e => e.2)
      | FileContent.csvFile _ => []
    else []) ++ recognizedCsvSources rest

/-- An input list whose contents match their extensions (a `.csv` name holds
CSV rows, a `.zip` name holds archive entries). -/
def WellFormed (files : List (String × FileContent)) : Prop :=
  ∀ p ∈ files,
    (csvExt p.1 = true → ∃ rows, p.2 = FileContent.csvFile rows) ∧
    (zipExt p.1 = true → ∃ es, p.2 = FileContent.zipFile es)

/-- Parse each source with `csv_import` and concatenate the results,
propagating the first parse failure. -/
def joinedImport (srcs : List (List (List String))) : Except String (List RecordMap) :=
  match mapME csv_import srcs with
  | Except.error e => Except.error e
  | Except.ok rss => Except.ok rss.flatten

theorem joinedImport_cons (rows : List (List String))
    (rest : List (List (List String))) :
    joinedImport (rows :: rest) =
      match csv_import rows with
      | Except.error e => Except.error e
      | Except.ok rs =>
        match joinedImport rest with
        | Except.error e => Except.error e
        | Except.ok more => Except.ok (rs ++ more) := by
  unfold joinedImport
  simp only [mapME]
  cases csv_import rows with
  | error e => rfl
  | ok rs =>
    cases mapME csv_import rest with
    | error e => rfl
    | ok rss => simp

theorem joinedImport_append (xs ys : List (List (List String))) :
    joinedImport (xs ++ ys) =
      match joinedImport xs with
      | Except.error e => Except.error e
      | Except.ok a =>
        match joinedImport ys with
        | Except.error e => Except.error e
        | Except.ok b => Except.ok (a ++ b) := by
  unfold joinedImport
  rw [mapME_append]
  cases mapME csv_import xs with
  | error e => rfl
  | ok a =>
    cases mapME csv_import ys with
    | error e => rfl
    | ok b => simp

theorem importZipEntries_eq (entries : List (String × List (List String))) :
    importZipEntries entries =
      joinedImport ((entries.filter (fun e => csvExt e.1)).map (fun e => e.2)) := by
  induction entries with
  | nil => rfl
  | cons p rest ih =>
    rcases p with ⟨n, rows⟩
    by_cases hn : csvExt n = true
    · rw [List.filter_cons_of_pos (by simpa using hn), List.map_cons, joinedImport_cons]
      simp only [importZipEntries, hn, if_true]
      cases csv_import rows with
      | error e => rfl
      | ok rs => rw [ih]
    · rw [List.filter_cons_of_neg (by simpa using hn)]
      simp only [importZipEntries, hn, if_false]
      exact ih

theorem ingest_files_eq : ∀ files : List (String × FileContent), WellFormed files →
    ingest_files files = joinedImport (recognizedCsvSources files) := by
  intro files
  induction files with
  | nil => intro _; rfl
  | cons p rest ih =>
    intro hwf
    have hwfr : WellFormed rest := fun q hq => hwf q (List.mem_cons_of_mem p hq)
    have hwfp := hwf p (List.mem_cons_self p rest)
    rcases p with ⟨n, c⟩
    by_cases hcsv : csvExt n = true
    · rcases hwfp.1 hcsv with ⟨rows, hc⟩
      subst hc
      simp only [ingest_files, recognizedCsvSources, hcsv, if_true,
        List.singleton_append, joinedImport_cons]
      cases csv_import rows with
      | error e => rfl
      | ok rs => rw [ih hwfr]
    · by_cases hzip : zipExt n = true
      · rcases hwfp.2 hzip with ⟨es, hc⟩
        subst hc
        simp only [ingest_files, recognizedCsvSources, hcsv, hzip, if_true, if_false,
          Bool.false_eq_true]
        rw [importZipEntries_eq, joinedImport_append, ih hwfr]
      · simp only [ingest_files, recognizedCsvSources, hcsv, hzip, if_false,
          Bool.false_eq_true, List.nil_append]
        exact ih hwfr

/-- C10: an input whose name ends in neither `.csv` nor `.zip`
(case-insensitively) is skipped without error, and on extension-consistent
inputs `ingest_files` returns exactly the concatenation of the records
parsed from the recognized CSV sources — the `*.csv` inputs plus the
`*.csv` entries of `*.zip` inputs, with non-CSV archive entries ignored. -/
theorem C10_unrecognized_inputs_ignored :
    (∀ (n : String) (c : FileContent) (rest : List (String × FileContent)),
      csvExt n = false → zipExt n = false →
      ingest_files ((n, c) :: rest) = ingest_files rest) ∧
    (∀ files : List (String × FileContent), WellFormed files →
      ingest_files files = joinedImport (recognizedCsvSources files)) := by
  constructor
  · intro n c rest h1 h2
    simp only [ingest_files, h1, h2, Bool.false_eq_true, if_false]
  · exact ingest_files_eq

/-- A well-formed CSV for the ingestion witness. -/
def w10csv : List (List String) :=
  [["location", "sublocation", "associate_vlan", "device_mac"],
   ["L", "S", "V", "D"]]

/-- Concrete inputs: an unrecognized `.txt`, an uppercase `.CSV` file, and a
ZIP holding one `.csv` entry and one non-CSV entry. -/
def w10files : List (String × FileContent) :=
  [("notes.txt", FileContent.csvFile [["x"]]),
   ("DATA.CSV", FileContent.csvFile w10csv),
   ("archive.Zip", FileContent.zipFile [("inner.csv", w10csv), ("readme.md", [["y"]])])]

/-- Witness for C10 on the concrete input list. -/
theorem C10_unrecognized_inputs_ignored_witness :
    WellFormed w10files ∧
    ingest_files w10files = joinedImport (recognizedCsvSources w10files) := by
  have hwf : WellFormed w10files := by
    intro p hp
    simp only [w10files, List.mem_cons, List.not_mem_nil, or_false] at hp
    rcases hp with h | h | h
    · subst h
      exact ⟨fun h2 => absurd h2 (by decide), fun h2 => absurd h2 (by decide)⟩
    · subst h
      exact ⟨fun _ => ⟨w10csv, rfl⟩, fun h2 => absurd h2 (by decide)⟩
    · subst h
      exact ⟨fun h2 => absurd h2 (by decide),
        fun _ => ⟨[("inner.csv", w10csv), ("readme.md", [["y"]])], rfl⟩⟩
  exact ⟨hwf, C10_unrecognized_inputs_ignored.2 w10files hwf⟩

end XIQReport
